import Mathlib

/-!
Verification of the bank-account record store (version2.c / version3.c).

The development shallowly embeds the C sources:

* `client_data` mirrors `struct client_data` (version2.c lines 26-31 and
  version3.c lines 28-33).  Machine values are modelled as `Nat`:
  `acct_num` is the value of the `unsigned int` field, the name fields are
  the full 15- / 10-byte character arrays (one `Nat` per byte), and
  `balance` is the 64-bit pattern of the `double` (fwrite/fread copy it
  bit-for-bit, so its numeric interpretation never matters here).
* The backing binary file is a `List client_data`; `fread` of slot `i`
  is `file[i]?` (a `none` result is a short read on a truncated file) and
  `fwrite` at slot `i` is `List.set`.  The `io_event` trace records which
  slots an operation actually touched with `fread`/`fwrite`.
* Each C function keeping these claims honest is translated one-to-one:
  `write_client_to_file`, `read_client_from_file` (both versions),
  `initialize_data_file`, `initialize_client`, `validate_name`,
  `validate_account_number`, `account_exists`, `create_account`,
  `update_account`, `delete_account`, `read_account`.
-/

/-- Mirror of the C struct client_data from version2.c / version3.c.  The name fields are
the raw character arrays (15 resp. 10 bytes including the terminator region);
`balance` is the 8-byte bit pattern of the C `double`. -/
structure client_data where
  acct_num : Nat
  last_name : List Nat
  first_name : List Nat
  balance : Nat
deriving DecidableEq

/-- The constant MAX_ACCOUNTS from the sources. -/
def MAX_ACCOUNTS : Nat := 100

/-- The constant MIN_ACCOUNT_NUM from version3.c. -/
def MIN_ACCOUNT_NUM : Nat := 1

/-- The constant MAX_ACCOUNT_NUM from version3.c. -/
def MAX_ACCOUNT_NUM : Nat := 100

/-- The constant RECORD_SIZE, sizeof struct client_data on the usual LP64 layout:
4 (acct_num) + 15 (last_name) + 10 (first_name) + 3 (padding) + 8 (balance). -/
def RECORD_SIZE : Nat := 40

/-- The empty sentinel record, the all-zero struct initializer used by
the file-initialization loop and by the delete operation; as written by
those functions every byte of the struct is zero. -/
def empty_client : client_data :=
  { acct_num := 0
    last_name := List.replicate 15 0
    first_name := List.replicate 10 0
    balance := 0 }

/-- Little-endian encoding of a machine integer into `k` bytes, as `fwrite`
lays out `unsigned int` (k = 4) and the `double` bit pattern (k = 8). -/
def encN : Nat → Nat → List Nat
  | 0, _ => []
  | k + 1, n => (n % 256) :: encN k (n / 256)

/-- Little-endian decoding of a byte list back into a machine integer. -/
def decN : List Nat → Nat
  | [] => 0
  | b :: bs => b + 256 * decN bs

/-- The byte block `fwrite` emits for one record: the struct's bytes in
declaration order with the 3 alignment padding bytes before `balance`. -/
def encode (c : client_data) : List Nat :=
  encN 4 c.acct_num ++ c.last_name ++ c.first_name ++ [0, 0, 0] ++ encN 8 c.balance

/-- The record `fread` reconstructs from one `RECORD_SIZE` byte block:
consecutive fields at their struct offsets (0, 4, 19, and 32 after the
padding). -/
def decode (bs : List Nat) : client_data :=
  let r1 := bs.drop 4
  let r2 := r1.drop 15
  let r3 := r2.drop 10
  { acct_num := decN (bs.take 4)
    last_name := r1.take 15
    first_name := r2.take 10
    balance := decN ((r3.drop 3).take 8) }

/-- A record the C program can actually hold in memory: field values fit
their machine widths and the name arrays have their declared sizes. -/
def wf_client (c : client_data) : Prop :=
  c.acct_num < 2 ^ 32 ∧
  c.last_name.length = 15 ∧ (∀ b ∈ c.last_name, b < 256) ∧
  c.first_name.length = 10 ∧ (∀ b ∈ c.first_name, b < 256) ∧
  c.balance < 2 ^ 64

instance (c : client_data) : Decidable (wf_client c) := by
  unfold wf_client; infer_instance

/-- ASCII restriction of isalpha from ctype.h in the default locale: the
byte is an upper- or lower-case letter. -/
def isalpha (c : Nat) : Bool :=
  decide (65 ≤ c ∧ c ≤ 90) || decide (97 ≤ c ∧ c ≤ 122)

/-- The per-character test inside validate_name (version3.c lines 294-299):
isalpha, or one of the bytes 32 (space), 45 (hyphen), 39 (apostrophe). -/
def valid_name_char (c : Nat) : Bool :=
  isalpha c || c == 32 || c == 45 || c == 39

/-- Translation of validate_name (version3.c lines 285-302).  The argument
is none for a NULL pointer, otherwise the bytes of the C string (the
content before the terminator, hence zero-free). -/
def validate_name : Option (List Nat) → Bool
  | none => false
  | some name =>
    if name.length == 0 then false
    else name.all valid_name_char

/-- Translation of validate_account_number (version3.c lines 274-276). -/
def validate_account_number (acct_num : Nat) : Bool :=
  decide (MIN_ACCOUNT_NUM ≤ acct_num ∧ acct_num ≤ MAX_ACCOUNT_NUM)

/-- The C string stored in a character array: the bytes before the first
zero byte. -/
def cstring_of (arr : List Nat) : List Nat :=
  arr.takeWhile (fun b => b != 0)

/-- Effect of `strncpy(dst, src, cap-1); dst[cap-1] = 0;` on a `cap`-byte
array (`initialize_client`): the first `min (cap-1) src.length` bytes come
from `src`, everything after them up to index `cap-1` is zero. -/
def strncpy_field (src : List Nat) (cap : Nat) : List Nat :=
  src.take (cap - 1) ++ List.replicate (cap - min src.length (cap - 1)) 0

/-- Effect of `fgets` writing string `s` and its terminator into the front
of an existing array (used by `update_account`'s name branches): bytes past
the newly written terminator keep their prior contents. -/
def fgets_into (arr s : List Nat) : List Nat :=
  (s ++ [0] ++ arr.drop (s.length + 1)).take arr.length

/-- Translation of initialize_client (version2.c lines 420-440 / version3.c
lines 396-417).  Here buf is the prior contents of the destination struct (the C
caller passes an uninitialized stack struct); a `none` name is the NULL
pointer case, which only stores a terminator at index 0. -/
def initialize_client (buf : client_data) (acct_num : Nat)
    (last_name first_name : Option (List Nat)) (balance : Nat) : client_data :=
  { acct_num := acct_num
    balance := balance
    last_name :=
      match last_name with
      | some s => strncpy_field s 15
      | none => buf.last_name.set 0 0
    first_name :=
      match first_name with
      | some s => strncpy_field s 10
      | none => buf.first_name.set 0 0 }

/-- One positioned I/O action performed on the data file. -/
inductive io_event
  | readSlot (position : Int)
  | writeSlot (position : Int)
deriving DecidableEq

/-- Translation of read_client_from_file of version2.c (lines 200-230):
range check before any file access; on a short fread the function memsets
the caller's struct to zero and reports failure.  Here buf is the caller's
struct content before the call. -/
def read_client_from_file_v2 (file : List client_data) (buf : client_data)
    (position : Int) : Bool × client_data × List io_event :=
  if position < 0 ∨ (MAX_ACCOUNTS : Int) ≤ position then (false, buf, [])
  else
    match file[position.toNat]? with
    | some c => (true, c, [io_event.readSlot position])
    | none => (false, empty_client, [io_event.readSlot position])

/-- Translation of read_client_from_file of version3.c (lines 722-731):
same range check, but on a short fread it only reports failure — the
caller's struct is left with whatever it held before. -/
def read_client_from_file_v3 (file : List client_data) (buf : client_data)
    (position : Int) : Bool × client_data × List io_event :=
  if position < 0 ∨ (MAX_ACCOUNTS : Int) ≤ position then (false, buf, [])
  else
    match file[position.toNat]? with
    | some c => (true, c, [io_event.readSlot position])
    | none => (false, buf, [io_event.readSlot position])

/-- Translation of write_client_to_file (version2.c lines 158-188 /
version3.c lines 711-720): range check before any access, then one
whole-record fwrite at offset position times RECORD_SIZE. -/
def write_client_to_file (file : List client_data) (client : client_data)
    (position : Int) : Bool × List client_data × List io_event :=
  if position < 0 ∨ (MAX_ACCOUNTS : Int) ≤ position then (false, file, [])
  else (true, file.set position.toNat client, [io_event.writeSlot position])

/-- Translation of initialize_data_file (version2.c lines 238-261) and of
the fresh-file path of its version3.c counterpart (lines 419-444): after
truncation, one empty record appended per loop iteration, slots 0..99 in
order. -/
def initialize_data_file : List client_data :=
  (List.range MAX_ACCOUNTS).foldl (fun f _ => f ++ [empty_client]) []

/-- Translation of account_exists (version3.c): validate the range, read
the slot of the account, report success combined with a non-zero stored id.
The local struct passed to the read is uninitialized; it is modelled by
empty_client, which is sound because a failed read short-circuits the
conjunction. -/
def account_exists (file : List client_data) (acct_num : Nat) :
    Bool × List io_event :=
  if validate_account_number acct_num = false then (false, [])
  else
    let r := read_client_from_file_v3 file empty_client ((acct_num : Int) - 1)
    (r.1 && (r.2.1.acct_num != 0), r.2.2)

/-- Translation of create_account (version3.c): the account number is
already filtered by get_account_number (0 unless validate_account_number
accepts), duplicate check via account_exists, then name validation,
initialize_client, and one write at the slot of the account.  The last and
first arguments are the strings gathered by get_name_input; bal is the
entered balance's bit pattern. -/
def create_account (file : List client_data) (acct_num : Nat)
    (last first : List Nat) (bal : Nat) : Bool × List client_data × List io_event :=
  if validate_account_number acct_num = false then (false, file, [])
  else
    let e := account_exists file acct_num
    if e.1 then (false, file, e.2)
    else if !(validate_name (some last)) || !(validate_name (some first)) then
      (false, file, e.2)
    else
      let new_client := initialize_client empty_client acct_num (some last) (some first) bal
      let w := write_client_to_file file new_client ((acct_num : Int) - 1)
      (w.1, w.2.1, e.2 ++ w.2.2)

/-- The three branches of `update_account`'s update menu.  Choice 1 performs
`client.balance += transaction` in double arithmetic; the model carries the
resulting bit pattern `new_balance` directly, since no claim concerns
floating-point arithmetic.  Choices 2 and 3 carry the strings `fgets` places
into the name arrays. -/
inductive update_req
  | tx (new_balance : Nat)
  | names (last first : List Nat)
  | both (last first : List Nat) (new_balance : Nat)

/-- Translation of update_account (version3.c lines 792-895): validate
range, read the slot, reject an empty slot, apply the chosen change to the
in-memory copy (re-validating replacement names), and write the record back
to the same slot. -/
def update_account (file : List client_data) (acct_num : Nat)
    (req : update_req) : Bool × List client_data :=
  if validate_account_number acct_num = false then (false, file)
  else
    let position : Int := (acct_num : Int) - 1
    let r := read_client_from_file_v3 file empty_client position
    if !r.1 || r.2.1.acct_num == 0 then (false, file)
    else
      match req with
      | update_req.tx nb =>
        let w := write_client_to_file file { r.2.1 with balance := nb } position
        (w.1, w.2.1)
      | update_req.names l f =>
        let c := { r.2.1 with
                   last_name := fgets_into r.2.1.last_name l
                   first_name := fgets_into r.2.1.first_name f }
        if !(validate_name (some (cstring_of c.last_name)))
            || !(validate_name (some (cstring_of c.first_name))) then (false, file)
        else
          let w := write_client_to_file file c position
          (w.1, w.2.1)
      | update_req.both l f nb =>
        let c := { r.2.1 with
                   last_name := fgets_into r.2.1.last_name l
                   first_name := fgets_into r.2.1.first_name f
                   balance := nb }
        if !(validate_name (some (cstring_of c.last_name)))
            || !(validate_name (some (cstring_of c.first_name))) then (false, file)
        else
          let w := write_client_to_file file c position
          (w.1, w.2.1)

/-- ASCII restriction of tolower from ctype.h. -/
def ascii_tolower (c : Nat) : Nat :=
  if 65 ≤ c ∧ c ≤ 90 then c + 32 else c

/-- Translation of delete_account (version3.c lines 908-972): validate
range, read the slot, reject an empty slot, warn (only) on a non-zero
balance, then on a yes confirmation (byte 121 after tolower) overwrite the
slot with the empty sentinel.  The confirm argument is the byte the user
typed. -/
def delete_account (file : List client_data) (acct_num : Nat)
    (confirm : Nat) : Bool × List client_data :=
  if validate_account_number acct_num = false then (false, file)
  else
    let position : Int := (acct_num : Int) - 1
    let r := read_client_from_file_v3 file empty_client position
    if !r.1 || r.2.1.acct_num == 0 then (false, file)
    else if ascii_tolower confirm != 121 then (false, file)
    else
      let w := write_client_to_file file empty_client position
      (w.1, w.2.1)

/-- Translation of read_account (version3.c lines 751-779): validate range,
read the slot, succeed exactly when the read succeeded and the slot is
occupied.  Here buf is the caller's uninitialized struct content. -/
def read_account (file : List client_data) (buf : client_data)
    (acct_num : Nat) : Bool × client_data :=
  if validate_account_number acct_num = false then (false, buf)
  else
    let r := read_client_from_file_v3 file buf ((acct_num : Int) - 1)
    (r.1 && (r.2.1.acct_num != 0), r.2.1)

/-- One CRUD mutation of the store, with the inputs its C function gathers
interactively. -/
inductive crud_op
  | create (acct_num : Nat) (last first : List Nat) (bal : Nat)
  | update (acct_num : Nat) (req : update_req)
  | delete (acct_num : Nat) (confirm : Nat)

/-- The file contents after running one CRUD operation. -/
def apply_op (file : List client_data) : crud_op → List client_data
  | crud_op.create a l f b => (create_account file a l f b).2.1
  | crud_op.update a r => (update_account file a r).2
  | crud_op.delete a c => (delete_account file a c).2

/-- The slot-addressing invariant of §3 of the spec: a non-empty record at
slot `i` carries id `i + 1`. -/
def slot_invariant (file : List client_data) : Prop :=
  ∀ i c, file[i]? = some c → c.acct_num ≠ 0 → c.acct_num = i + 1

/-! ### Helper lemmas -/

lemma validate_account_number_iff (n : Nat) :
    validate_account_number n = true ↔ 1 ≤ n ∧ n ≤ 100 := by
  unfold validate_account_number MIN_ACCOUNT_NUM MAX_ACCOUNT_NUM
  exact decide_eq_true_iff

lemma validate_account_number_true {n : Nat}
    (h : validate_account_number n = true) : 1 ≤ n ∧ n ≤ 100 :=
  (validate_account_number_iff n).mp h

lemma encN_length (k n : Nat) : (encN k n).length = k := by
  induction k generalizing n with
  | zero => rfl
  | succ k ih => simp [encN, ih]

lemma decN_encN (k n : Nat) (h : n < 256 ^ k) : decN (encN k n) = n := by
  induction k generalizing n with
  | zero => simp [Nat.pow_zero, Nat.lt_one_iff] at h; simp [h, encN, decN]
  | succ k ih =>
    have hdiv : n / 256 < 256 ^ k := by
      rw [Nat.div_lt_iff_lt_mul (by norm_num)]
      calc n < 256 ^ (k + 1) := h
        _ = 256 ^ k * 256 := by ring
    simp [encN, decN, ih (n / 256) hdiv]
    omega

lemma position_in_range {a : Nat} (h1 : 1 ≤ a) (h2 : a ≤ 100) :
    ¬(((a : Int) - 1) < 0 ∨ (MAX_ACCOUNTS : Int) ≤ ((a : Int) - 1)) := by
  unfold MAX_ACCOUNTS
  omega

lemma position_toNat {a : Nat} (h1 : 1 ≤ a) : ((a : Int) - 1).toNat = a - 1 := by
  omega

lemma read_v3_eq (file : List client_data) (buf : client_data) (a : Nat)
    (h1 : 1 ≤ a) (h2 : a ≤ 100) :
    read_client_from_file_v3 file buf ((a : Int) - 1) =
      match file[a - 1]? with
      | some c => (true, c, [io_event.readSlot ((a : Int) - 1)])
      | none => (false, buf, [io_event.readSlot ((a : Int) - 1)]) := by
  unfold read_client_from_file_v3
  rw [if_neg (position_in_range h1 h2), position_toNat h1]

lemma account_exists_eq (file : List client_data) (a : Nat)
    (h1 : 1 ≤ a) (h2 : a ≤ 100) :
    account_exists file a =
      ((match file[a - 1]? with
        | some c => c.acct_num != 0
        | none => false),
       [io_event.readSlot ((a : Int) - 1)]) := by
  have hv : validate_account_number a = true := (validate_account_number_iff a).mpr ⟨h1, h2⟩
  unfold account_exists
  rw [if_neg (by simp [hv]), read_v3_eq file empty_client a h1 h2]
  cases file[a - 1]? <;> simp

set_option maxRecDepth 4000 in
lemma init_eq_replicate : initialize_data_file = List.replicate 100 empty_client := by
  decide

lemma slot_invariant_initial : slot_invariant initialize_data_file := by
  rw [init_eq_replicate]
  intro i c hc hne
  rw [List.getElem?_replicate] at hc
  split at hc
  · cases hc
    simp [empty_client] at hne
  · cases hc

lemma slot_invariant_set (file : List client_data) (p : Nat) (d : client_data)
    (h : slot_invariant file) (hd : d.acct_num ≠ 0 → d.acct_num = p + 1) :
    slot_invariant (file.set p d) := by
  intro i c hc hne
  by_cases hpi : p = i
  · subst hpi
    by_cases hlen : p < file.length
    · rw [List.getElem?_set_eq_of_lt d hlen] at hc
      cases hc
      exact hd hne
    · rw [List.set_eq_of_length_le (Nat.le_of_not_lt hlen)] at hc
      exact h p c hc hne
  · rw [List.getElem?_set_ne hpi] at hc
    exact h i c hc hne

lemma write_in_range_eq (file : List client_data) (c : client_data) (a : Nat)
    (h1 : 1 ≤ a) (h2 : a ≤ 100) :
    write_client_to_file file c ((a : Int) - 1) =
      (true, file.set (a - 1) c, [io_event.writeSlot ((a : Int) - 1)]) := by
  unfold write_client_to_file
  rw [if_neg (position_in_range h1 h2), position_toNat h1]

lemma create_account_spec (file : List client_data) (a : Nat)
    (l f : List Nat) (b : Nat)
    (ha : validate_account_number a = true)
    (hex : (account_exists file a).1 = false)
    (hl : validate_name (some l) = true) (hf : validate_name (some f) = true) :
    create_account file a l f b =
      (true,
       file.set (a - 1) (initialize_client empty_client a (some l) (some f) b),
       [io_event.readSlot ((a : Int) - 1), io_event.writeSlot ((a : Int) - 1)]) := by
  obtain ⟨h1, h2⟩ := validate_account_number_true ha
  unfold create_account
  rw [if_neg (by simp [ha])]
  have he2 : (account_exists file a).2 = [io_event.readSlot ((a : Int) - 1)] := by
    rw [account_exists_eq file a h1 h2]
  simp only [hex, he2, hl, hf, Bool.not_true, Bool.or_self, if_false,
    write_in_range_eq file _ a h1 h2, Bool.false_eq_true]
  rfl

lemma create_account_result (file : List client_data) (a : Nat)
    (l f : List Nat) (b : Nat) :
    (create_account file a l f b).2.1 = file ∨
    (1 ≤ a ∧ a ≤ 100 ∧
      (create_account file a l f b).2.1 =
        file.set (a - 1) (initialize_client empty_client a (some l) (some f) b)) := by
  by_cases hv : validate_account_number a = true
  · obtain ⟨h1, h2⟩ := validate_account_number_true hv
    cases hex : (account_exists file a).1 with
    | true =>
      left
      unfold create_account
      rw [if_neg (by simp [hv])]
      simp [hex]
    | false =>
      cases hl : validate_name (some l) with
      | false =>
        left
        unfold create_account
        rw [if_neg (by simp [hv])]
        simp [hex, hl]
      | true =>
        cases hf : validate_name (some f) with
        | false =>
          left
          unfold create_account
          rw [if_neg (by simp [hv])]
          simp [hex, hl, hf]
        | true =>
          right
          exact ⟨h1, h2, by rw [create_account_spec file a l f b hv hex hl hf]⟩
  · left
    unfold create_account
    rw [if_pos (by simpa using hv)]

lemma update_account_result (file : List client_data) (a : Nat) (req : update_req) :
    (update_account file a req).2 = file ∨
    ∃ c d, file[a - 1]? = some c ∧ c.acct_num ≠ 0 ∧ d.acct_num = c.acct_num ∧
      (update_account file a req).2 = file.set (a - 1) d := by
  by_cases hv : validate_account_number a = true
  · obtain ⟨h1, h2⟩ := validate_account_number_true hv
    unfold update_account
    rw [if_neg (by simp [hv])]
    simp only [read_v3_eq file empty_client a h1 h2]
    cases hg : file[a - 1]? with
    | none => left; simp
    | some c =>
      by_cases hc : c.acct_num = 0
      · left; simp [hc]
      · have hcb : (c.acct_num == 0) = false := by simp [hc]
        simp only [hcb, Bool.not_true, Bool.false_or, Bool.false_eq_true, if_false]
        cases req with
        | tx nb =>
          right
          refine ⟨c, { c with balance := nb }, rfl, hc, rfl, ?_⟩
          simp [write_in_range_eq file _ a h1 h2]
        | names l f =>
          set d : client_data :=
            { c with last_name := fgets_into c.last_name l
                     first_name := fgets_into c.first_name f } with hdd
          by_cases hn : (!(validate_name (some (cstring_of d.last_name)))
              || !(validate_name (some (cstring_of d.first_name)))) = true
          · left; simp [hn]
          · right
            refine ⟨c, d, rfl, hc, rfl, ?_⟩
            simp only [Bool.not_eq_true] at hn
            simp [hn, write_in_range_eq file _ a h1 h2]
        | both l f nb =>
          set d : client_data :=
            { c with last_name := fgets_into c.last_name l
                     first_name := fgets_into c.first_name f
                     balance := nb } with hdd
          by_cases hn : (!(validate_name (some (cstring_of d.last_name)))
              || !(validate_name (some (cstring_of d.first_name)))) = true
          · left; simp [hn]
          · right
            refine ⟨c, d, rfl, hc, rfl, ?_⟩
            simp only [Bool.not_eq_true] at hn
            simp [hn, write_in_range_eq file _ a h1 h2]
  · left
    unfold update_account
    rw [if_pos (by simpa using hv)]

lemma delete_account_spec (file : List client_data) (a : Nat) (k : Nat)
    (c : client_data)
    (ha : validate_account_number a = true)
    (hget : file[a - 1]? = some c) (hc : c.acct_num ≠ 0)
    (hk : ascii_tolower k = 121) :
    delete_account file a k = (true, file.set (a - 1) empty_client) := by
  obtain ⟨h1, h2⟩ := validate_account_number_true ha
  unfold delete_account
  rw [if_neg (by simp [ha])]
  simp only [read_v3_eq file empty_client a h1 h2, hget]
  have hcb : (c.acct_num == 0) = false := by simp [hc]
  have hkb : (ascii_tolower k != 121) = false := by simp [hk]
  simp [hcb, hkb, write_in_range_eq file _ a h1 h2]

lemma delete_account_result (file : List client_data) (a : Nat) (k : Nat) :
    (delete_account file a k).2 = file ∨
    ∃ p, (delete_account file a k).2 = file.set p empty_client := by
  by_cases hv : validate_account_number a = true
  · obtain ⟨h1, h2⟩ := validate_account_number_true hv
    unfold delete_account
    rw [if_neg (by simp [hv])]
    simp only [read_v3_eq file empty_client a h1 h2]
    cases hg : file[a - 1]? with
    | none => left; simp
    | some c =>
      by_cases hc : c.acct_num = 0
      · left; simp [hc]
      · have hcb : (c.acct_num == 0) = false := by simp [hc]
        by_cases hk : ascii_tolower k = 121
        · have hkb : (ascii_tolower k != 121) = false := by simp [hk]
          right
          exact ⟨a - 1, by simp [hcb, hkb, write_in_range_eq file _ a h1 h2]⟩
        · have hkb : (ascii_tolower k != 121) = true := by simp [hk]
          left
          simp [hcb, hkb]
  · left
    unfold delete_account
    rw [if_pos (by simpa using hv)]

lemma strncpy_field_length (s : List Nat) (cap : Nat) (h : 1 ≤ cap) :
    (strncpy_field s cap).length = cap := by
  unfold strncpy_field
  simp [List.length_take]
  omega

lemma replicate_takeWhile_ne_zero (m : Nat) :
    (List.replicate m 0).takeWhile (fun b => b != 0) = ([] : List Nat) := by
  cases m with
  | zero => rfl
  | succ m => simp [List.replicate_succ, List.takeWhile_cons]

lemma cstring_strncpy (s : List Nat) (cap : Nat) (_hcap : 1 ≤ cap) (hz : 0 ∉ s) :
    cstring_of (strncpy_field s cap) = s.take (cap - 1) := by
  unfold cstring_of strncpy_field
  rw [List.takeWhile_append_of_pos, replicate_takeWhile_ne_zero, List.append_nil]
  intro a ha
  have : a ∈ s := List.mem_of_mem_take ha
  simp only [bne_iff_ne, ne_eq]
  intro hz0
  exact hz (hz0 ▸ this)

lemma zero_mem_strncpy (s : List Nat) (cap : Nat) (h : 1 ≤ cap) :
    0 ∈ strncpy_field s cap := by
  unfold strncpy_field
  refine List.mem_append.mpr (Or.inr ?_)
  refine List.mem_replicate.mpr ⟨?_, rfl⟩
  have : min s.length (cap - 1) ≤ cap - 1 := Nat.min_le_right _ _
  omega

lemma cstring_set_zero (arr : List Nat) (h : 1 ≤ arr.length) :
    cstring_of (arr.set 0 0) = [] := by
  cases arr with
  | nil => simp at h
  | cons x xs => simp [cstring_of, List.takeWhile_cons]

lemma zero_mem_set_zero (arr : List Nat) (h : 1 ≤ arr.length) :
    0 ∈ arr.set 0 0 := by
  cases arr with
  | nil => simp at h
  | cons x xs => simp [List.set]

/-- Claim C10: for every account number, name input (including names longer
than the field capacity and NULL name pointers) and balance,
`initialize_client` produces a record whose `last_name` and `first_name`
arrays keep their declared sizes and hold null-terminated C strings of at
most 14 resp. 9 characters: a longer input is truncated to the capacity and
a NULL input becomes the empty string, so no stored record carries an
unterminated name field. -/
theorem initialize_client_names_terminated (buf : client_data) (a : Nat)
    (ln fn : Option (List Nat)) (b : Nat)
    (hb1 : buf.last_name.length = 15) (hb2 : buf.first_name.length = 10)
    (hln : match ln with | some s => 0 ∉ s | none => True)
    (hfn : match fn with | some s => 0 ∉ s | none => True) :
    (initialize_client buf a ln fn b).last_name.length = 15 ∧
    (initialize_client buf a ln fn b).first_name.length = 10 ∧
    0 ∈ (initialize_client buf a ln fn b).last_name ∧
    0 ∈ (initialize_client buf a ln fn b).first_name ∧
    cstring_of (initialize_client buf a ln fn b).last_name
      = (match ln with | some s => s.take 14 | none => []) ∧
    cstring_of (initialize_client buf a ln fn b).first_name
      = (match fn with | some s => s.take 9 | none => []) ∧
    (cstring_of (initialize_client buf a ln fn b).last_name).length ≤ 14 ∧
    (cstring_of (initialize_client buf a ln fn b).first_name).length ≤ 9 := by
  cases ln with
  | some s =>
    cases fn with
    | some t =>
      simp only [initialize_client]
      refine ⟨strncpy_field_length s 15 (by omega),
              strncpy_field_length t 10 (by omega),
              zero_mem_strncpy s 15 (by omega),
              zero_mem_strncpy t 10 (by omega),
              cstring_strncpy s 15 (by omega) hln,
              cstring_strncpy t 10 (by omega) hfn, ?_, ?_⟩ <;>
        simp [cstring_strncpy s 15 (by omega) hln,
              cstring_strncpy t 10 (by omega) hfn, List.length_take]
    | none =>
      simp only [initialize_client]
      refine ⟨strncpy_field_length s 15 (by omega), by simp [hb2],
              zero_mem_strncpy s 15 (by omega),
              zero_mem_set_zero _ (by omega),
              cstring_strncpy s 15 (by omega) hln,
              cstring_set_zero _ (by omega), ?_, ?_⟩ <;>
        simp [cstring_strncpy s 15 (by omega) hln,
              cstring_set_zero buf.first_name (by omega), List.length_take]
  | none =>
    cases fn with
    | some t =>
      simp only [initialize_client]
      refine ⟨by simp [hb1], strncpy_field_length t 10 (by omega),
              zero_mem_set_zero _ (by omega),
              zero_mem_strncpy t 10 (by omega),
              cstring_set_zero _ (by omega),
              cstring_strncpy t 10 (by omega) hfn, ?_, ?_⟩ <;>
        simp [cstring_set_zero buf.last_name (by omega),
              cstring_strncpy t 10 (by omega) hfn, List.length_take]
    | none =>
      simp only [initialize_client]
      refine ⟨by simp [hb1], by simp [hb2],
              zero_mem_set_zero _ (by omega),
              zero_mem_set_zero _ (by omega),
              cstring_set_zero _ (by omega),
              cstring_set_zero _ (by omega), ?_, ?_⟩ <;>
        simp [cstring_set_zero buf.last_name (by omega),
              cstring_set_zero buf.first_name (by omega)]

/-- Witness for C10 at a concrete call: a 20-character last name is cut to
14 characters and a NULL first name becomes the empty string. -/
theorem initialize_client_names_terminated_witness :
    (initialize_client empty_client 7 (some (List.replicate 20 65)) none 3).last_name.length = 15 ∧
    (initialize_client empty_client 7 (some (List.replicate 20 65)) none 3).first_name.length = 10 ∧
    0 ∈ (initialize_client empty_client 7 (some (List.replicate 20 65)) none 3).last_name ∧
    0 ∈ (initialize_client empty_client 7 (some (List.replicate 20 65)) none 3).first_name ∧
    cstring_of (initialize_client empty_client 7 (some (List.replicate 20 65)) none 3).last_name
      = (List.replicate 20 65).take 14 ∧
    cstring_of (initialize_client empty_client 7 (some (List.replicate 20 65)) none 3).first_name
      = [] ∧
    (cstring_of (initialize_client empty_client 7 (some (List.replicate 20 65)) none 3).last_name).length ≤ 14 ∧
    (cstring_of (initialize_client empty_client 7 (some (List.replicate 20 65)) none 3).first_name).length ≤ 9 :=
  initialize_client_names_terminated empty_client 7 (some (List.replicate 20 65)) none 3
    (by decide) (by decide) (by decide) (by decide)

lemma valid_name_char_iff (c : Nat) :
    valid_name_char c = true ↔
      ((65 ≤ c ∧ c ≤ 90) ∨ (97 ≤ c ∧ c ≤ 122) ∨ c = 32 ∨ c = 45 ∨ c = 39) := by
  unfold valid_name_char isalpha
  simp only [Bool.or_eq_true, decide_eq_true_eq, beq_iff_eq]
  tauto

/-- Claim C3: `validate_name` returns false exactly when the string is empty
or contains a character outside the set letter / space / hyphen /
apostrophe (ASCII 32, 45, 39); every non-empty string built solely from that
set is accepted. -/
theorem validate_name_charset :
    (∀ s : List Nat, validate_name (some s) = false ↔
      s = [] ∨ ∃ c ∈ s,
        ¬((65 ≤ c ∧ c ≤ 90) ∨ (97 ≤ c ∧ c ≤ 122) ∨ c = 32 ∨ c = 45 ∨ c = 39)) ∧
    (∀ s : List Nat, s ≠ [] →
      (∀ c ∈ s, (65 ≤ c ∧ c ≤ 90) ∨ (97 ≤ c ∧ c ≤ 122) ∨ c = 32 ∨ c = 45 ∨ c = 39) →
      validate_name (some s) = true) := by
  have key : ∀ s : List Nat, validate_name (some s) = false ↔
      s = [] ∨ ∃ c ∈ s,
        ¬((65 ≤ c ∧ c ≤ 90) ∨ (97 ≤ c ∧ c ≤ 122) ∨ c = 32 ∨ c = 45 ∨ c = 39) := by
    intro s
    cases s with
    | nil => simp [validate_name]
    | cons x xs =>
      simp only [validate_name, List.length_cons, beq_iff_eq, Nat.succ_ne_zero, if_false,
        reduceCtorEq, false_or]
      rw [← Bool.not_eq_true, List.all_eq_true]
      constructor
      · intro h
        by_contra hno
        push_neg at hno
        exact h fun c hc => (valid_name_char_iff c).mpr (hno c hc)
      · rintro ⟨c, hc, hbad⟩ hall
        exact hbad ((valid_name_char_iff c).mp (hall c hc))
  refine ⟨key, ?_⟩
  intro s hne hall
  rw [← Bool.not_eq_false, key]
  push_neg
  exact ⟨hne, fun c hc => by simpa using hall c hc⟩

/-- Witness for C3: the name consisting of the bytes of `Doe` is accepted. -/
theorem validate_name_charset_witness :
    validate_name (some [68, 111, 101]) = true :=
  validate_name_charset.2 [68, 111, 101] (by decide) (by decide)

set_option maxRecDepth 8000 in
/-- Claim C4: `validate_account_number n` is true exactly when
`1 ≤ n ≤ 100`; `create_account` succeeds for the boundary ids 1 and 100 on
a fresh store with valid data, while ids 0 and 101 are rejected before any
file access and the file is returned unmodified. -/
theorem account_number_range_and_boundaries :
    (∀ n : Nat, validate_account_number n = true ↔ 1 ≤ n ∧ n ≤ 100) ∧
    (create_account initialize_data_file 1 [68, 111, 101] [74, 97, 110, 101] 500).1 = true ∧
    (create_account initialize_data_file 100 [68, 111, 101] [74, 97, 110, 101] 500).1 = true ∧
    (∀ (file : List client_data) (l f : List Nat) (b : Nat),
      create_account file 0 l f b = (false, file, [])) ∧
    (∀ (file : List client_data) (l f : List Nat) (b : Nat),
      create_account file 101 l f b = (false, file, [])) := by
  refine ⟨validate_account_number_iff, by decide, by decide, ?_, ?_⟩ <;>
    intro file l f b <;> rfl

/-- Witness for C4's range characterization at a concrete id. -/
theorem account_number_range_witness : validate_account_number 50 = true :=
  (account_number_range_and_boundaries.1 50).mpr (by decide)

/-- Claim C6: the initialization loop produces exactly the 100-slot file of
empty sentinel records, written in slot order 0..99, and on that fresh store
`account_exists` is false for every id 1..100. -/
theorem initialize_data_file_sentinels :
    initialize_data_file = List.replicate 100 empty_client ∧
    initialize_data_file.length = 100 ∧
    (∀ i, i < 100 → initialize_data_file[i]? = some empty_client) ∧
    (∀ k, 1 ≤ k → k ≤ 100 → (account_exists initialize_data_file k).1 = false) := by
  refine ⟨init_eq_replicate, by rw [init_eq_replicate]; simp, ?_, ?_⟩
  · intro i hi
    rw [init_eq_replicate, List.getElem?_replicate, if_pos hi]
  · intro k h1 h2
    rw [account_exists_eq initialize_data_file k h1 h2]
    have : initialize_data_file[k - 1]? = some empty_client := by
      rw [init_eq_replicate, List.getElem?_replicate, if_pos (by omega)]
    simp [this, empty_client]

/-- Witness for C6: account 7 does not exist on the fresh store. -/
theorem initialize_data_file_sentinels_witness :
    (account_exists initialize_data_file 7).1 = false :=
  initialize_data_file_sentinels.2.2.2 7 (by decide) (by decide)

/-- Claim C1: the slot-addressing invariant — every non-zero id stored at
slot `i` equals `i + 1` — is preserved by every Create, Update and Delete:
no operation ever writes a record with a foreign id to a slot. -/
theorem crud_preserves_slot_invariant (file : List client_data)
    (h : slot_invariant file) (op : crud_op) :
    slot_invariant (apply_op file op) := by
  cases op with
  | create a l f b =>
    rcases create_account_result file a l f b with hres | ⟨h1, _, hres⟩
    · simp only [apply_op]
      rw [hres]
      exact h
    · simp only [apply_op]
      rw [hres]
      refine slot_invariant_set file (a - 1) _ h ?_
      intro _
      simp only [initialize_client]
      omega
  | update a r =>
    rcases update_account_result file a r with hres | ⟨c, d, hget, hc, hd, hres⟩
    · simp only [apply_op]
      rw [hres]
      exact h
    · simp only [apply_op]
      rw [hres]
      refine slot_invariant_set file (a - 1) d h ?_
      intro _
      rw [hd]
      exact h (a - 1) c hget hc
  | delete a k =>
    rcases delete_account_result file a k with hres | ⟨p, hres⟩
    · simp only [apply_op]
      rw [hres]
      exact h
    · simp only [apply_op]
      rw [hres]
      refine slot_invariant_set file p empty_client h ?_
      intro hne
      exact absurd rfl hne

/-- Witness for C1: a concrete Create on the freshly initialized store keeps
the invariant. -/
theorem crud_preserves_slot_invariant_witness :
    slot_invariant (apply_op initialize_data_file
      (crud_op.create 5 [68, 111, 101] [74, 97, 110] 250)) :=
  crud_preserves_slot_invariant initialize_data_file slot_invariant_initial
    (crud_op.create 5 [68, 111, 101] [74, 97, 110] 250)

/-- Claim C2: the codec round-trips — decoding the encoded byte block of any
well-formed record returns that record, the all-zero block decodes to the
empty sentinel — and at the store level writing a record to an in-range slot
and reading the same slot back returns exactly the written record. -/
theorem codec_round_trip :
    (∀ c : client_data, wf_client c → decode (encode c) = c) ∧
    decode (List.replicate 40 0) = empty_client ∧
    (∀ (file : List client_data) (c : client_data) (buf : client_data) (pos : Int),
      0 ≤ pos → pos < 100 → pos.toNat < file.length →
      read_client_from_file_v3 (write_client_to_file file c pos).2.1 buf pos
        = (true, c, [io_event.readSlot pos])) := by
  refine ⟨?_, by decide, ?_⟩
  · intro c hwf
    obtain ⟨h1, h2, _, h4, _, h6⟩ := hwf
    cases c with
    | mk a l f b =>
      simp only [client_data.last_name, client_data.first_name,
        client_data.acct_num, client_data.balance] at h1 h2 h4 h6
      have eA : (encN 4 a).length = 4 := encN_length 4 a
      have d0 : (encode (client_data.mk a l f b)).take 4 = encN 4 a := by
        simp only [encode, List.append_assoc]
        exact List.take_left' eA
      have d1 : (encode (client_data.mk a l f b)).drop 4
          = l ++ (f ++ ([0, 0, 0] ++ encN 8 b)) := by
        simp only [encode, List.append_assoc]
        exact List.drop_left' eA
      have d2 : (l ++ (f ++ ([0, 0, 0] ++ encN 8 b))).take 15 = l :=
        List.take_left' h2
      have d3 : (l ++ (f ++ ([0, 0, 0] ++ encN 8 b))).drop 15
          = f ++ ([0, 0, 0] ++ encN 8 b) := List.drop_left' h2
      have d4 : (f ++ ([0, 0, 0] ++ encN 8 b)).take 10 = f := List.take_left' h4
      have d5 : (f ++ ([0, 0, 0] ++ encN 8 b)).drop 10
          = [0, 0, 0] ++ encN 8 b := List.drop_left' h4
      have d6 : (([0, 0, 0] ++ encN 8 b) : List Nat).drop 3 = encN 8 b := rfl
      have d7 : (encN 8 b).take 8 = encN 8 b := by
        rw [List.take_of_length_le (by rw [encN_length])]
      simp only [decode, d0, d1, d2, d3, d4, d5, d6, d7]
      rw [decN_encN 4 a (by norm_num at h1 ⊢; exact h1),
        decN_encN 8 b (by norm_num at h6 ⊢; exact h6)]
  · intro file c buf pos hp0 hp1 hplen
    have hnr : ¬(pos < 0 ∨ (MAX_ACCOUNTS : Int) ≤ pos) := by
      unfold MAX_ACCOUNTS
      omega
    unfold write_client_to_file
    rw [if_neg hnr]
    unfold read_client_from_file_v3
    rw [if_neg hnr]
    rw [List.getElem?_set_eq_of_lt c (by simpa using hplen)]

/-- Witness for C2 at a concrete record and slot. -/
theorem codec_round_trip_witness :
    decode (encode (initialize_client empty_client 42 (some [68, 111, 101]) (some [74, 97, 110]) 123456789))
      = initialize_client empty_client 42 (some [68, 111, 101]) (some [74, 97, 110]) 123456789 ∧
    read_client_from_file_v3
      (write_client_to_file initialize_data_file
        (initialize_client empty_client 42 (some [68, 111, 101]) (some [74, 97, 110]) 123456789) 41).2.1
      empty_client 41
      = (true,
         initialize_client empty_client 42 (some [68, 111, 101]) (some [74, 97, 110]) 123456789,
         [io_event.readSlot 41]) :=
  ⟨codec_round_trip.1 _ (by decide),
   codec_round_trip.2.2 initialize_data_file _ empty_client 41 (by decide) (by decide)
     (by rw [init_eq_replicate]; decide)⟩

/-- A concrete record standing for the arbitrary prior contents of a
caller's uninitialized struct. -/
def probe_client : client_data :=
  { acct_num := 9
    last_name := List.replicate 15 0
    first_name := List.replicate 10 0
    balance := 4 }

/-- Counterexample for C5 as stated: version3's `read_client_from_file` on a
short read (slot 0 of an empty/truncated file) does NOT return the empty
sentinel — it reports failure and leaves the caller's struct contents (here
`probe_client`) as they were, which differ from the sentinel. -/
theorem short_read_v3_not_sentinel :
    read_client_from_file_v3 [] probe_client 0
      = (false, probe_client, [io_event.readSlot 0]) ∧
    probe_client ≠ empty_client := by
  decide

/-- Claim C5 (amended): both versions of `read_client_from_file` reject an
out-of-range slot index before any file access, returning failure with the
caller's struct and the store untouched; on an in-range short read both
signal the failure after touching the slot, and version2's read returns the
empty sentinel while version3's read leaves the caller's struct unchanged. -/
theorem read_range_check_and_short_read (file : List client_data)
    (buf : client_data) (position : Int) :
    ((position < 0 ∨ 100 ≤ position) →
      read_client_from_file_v2 file buf position = (false, buf, []) ∧
      read_client_from_file_v3 file buf position = (false, buf, [])) ∧
    (0 ≤ position → position < 100 → file[position.toNat]? = none →
      read_client_from_file_v2 file buf position
        = (false, empty_client, [io_event.readSlot position]) ∧
      read_client_from_file_v3 file buf position
        = (false, buf, [io_event.readSlot position])) := by
  constructor
  · intro hout
    have hc : position < 0 ∨ (MAX_ACCOUNTS : Int) ≤ position := by
      unfold MAX_ACCOUNTS
      omega
    unfold read_client_from_file_v2 read_client_from_file_v3
    rw [if_pos hc, if_pos hc]
    exact ⟨rfl, rfl⟩
  · intro h0 h1 hshort
    have hc : ¬(position < 0 ∨ (MAX_ACCOUNTS : Int) ≤ position) := by
      unfold MAX_ACCOUNTS
      omega
    unfold read_client_from_file_v2 read_client_from_file_v3
    rw [if_neg hc, if_neg hc, hshort]
    exact ⟨rfl, rfl⟩

/-- Witness for the amended C5: a short read at slot 0 of the empty file. -/
theorem read_range_check_and_short_read_witness :
    read_client_from_file_v2 [] empty_client 0
      = (false, empty_client, [io_event.readSlot 0]) ∧
    read_client_from_file_v3 [] empty_client 0
      = (false, empty_client, [io_event.readSlot 0]) :=
  (read_range_check_and_short_read [] empty_client 0).2 (by decide) (by decide) rfl

/-- Claim C7: a Create aimed at an occupied slot fails, performs no write
(the trace holds exactly the duplicate-check read), and the file — in
particular the record stored by the first Create — is returned unchanged. -/
theorem duplicate_create_rejected (file : List client_data) (a : Nat)
    (c : client_data) (l f : List Nat) (b : Nat)
    (ha : validate_account_number a = true)
    (hget : file[a - 1]? = some c) (hc : c.acct_num ≠ 0) :
    create_account file a l f b = (false, file, [io_event.readSlot ((a : Int) - 1)]) := by
  obtain ⟨h1, h2⟩ := validate_account_number_true ha
  unfold create_account
  rw [if_neg (by simp [ha])]
  have he : account_exists file a
      = (c.acct_num != 0, [io_event.readSlot ((a : Int) - 1)]) := by
    rw [account_exists_eq file a h1 h2, hget]
  have hcb : (c.acct_num != 0) = true := by simp [hc]
  simp [he, hcb]

/-- The store after one successful Create of account 5 on the fresh file. -/
def file_after_create5 : List client_data :=
  (create_account initialize_data_file 5 [68, 111, 101] [74, 97, 110, 101] 100).2.1

set_option maxRecDepth 8000 in
/-- Witness for C7: creating account 5 twice — the second call fails and
leaves the file from the first call unchanged. -/
theorem duplicate_create_rejected_witness :
    create_account file_after_create5 5 [66, 111, 98] [65, 108] 3
      = (false, file_after_create5, [io_event.readSlot ((5 : Int) - 1)]) :=
  duplicate_create_rejected file_after_create5 5
    (initialize_client empty_client 5 (some [68, 111, 101]) (some [74, 97, 110, 101]) 100)
    [66, 111, 98] [65, 108] 3 (by decide) (by decide) (by decide)

set_option maxRecDepth 8000 in
/-- Counterexample for C8 as stated: a Create with a valid id but an invalid
last name (the digits `123`) does perform I/O on the store — the
duplicate-check read of slot 4 happens before the names are validated, so
the operation's I/O trace is not empty. -/
theorem create_invalid_name_touches_store :
    validate_name (some [49, 50, 51]) = false ∧
    (create_account initialize_data_file 5 [49, 50, 51] [74, 111, 110] 0).2.2
      = [io_event.readSlot 4] ∧
    (create_account initialize_data_file 5 [49, 50, 51] [74, 111, 110] 0).2.2
      ≠ ([] : List io_event) := by
  refine ⟨by decide, by decide, by decide⟩

/-- Claim C8 (amended): a Create whose id fails the range check performs no
I/O at all and fails; a Create whose id is valid but whose last or first
name fails validation fails and performs no write — the store is returned
unmodified — but its I/O trace already holds the one duplicate-check read of
the target slot, which precedes name validation. -/
theorem create_validation_failure_io (file : List client_data) (a : Nat)
    (l f : List Nat) (b : Nat) :
    (validate_account_number a = false →
      create_account file a l f b = (false, file, [])) ∧
    (validate_account_number a = true →
      (account_exists file a).1 = false →
      (validate_name (some l) = false ∨ validate_name (some f) = false) →
      create_account file a l f b
        = (false, file, [io_event.readSlot ((a : Int) - 1)])) := by
  constructor
  · intro hv
    unfold create_account
    rw [if_pos hv]
  · intro hv hex hnames
    obtain ⟨h1, h2⟩ := validate_account_number_true hv
    have he2 : (account_exists file a).2 = [io_event.readSlot ((a : Int) - 1)] := by
      rw [account_exists_eq file a h1 h2]
    have hn : (!(validate_name (some l)) || !(validate_name (some f))) = true := by
      rcases hnames with hl | hf
      · simp [hl]
      · simp [hf]
    unfold create_account
    rw [if_neg (by simp [hv])]
    simp [hex, hn, he2]

set_option maxRecDepth 8000 in
/-- Witness for the amended C8: Create of account 5 with last name `123` on
the fresh store fails after exactly the duplicate-check read. -/
theorem create_validation_failure_io_witness :
    create_account initialize_data_file 5 [49, 50, 51] [74, 111, 110] 0
      = (false, initialize_data_file, [io_event.readSlot ((5 : Int) - 1)]) :=
  (create_validation_failure_io initialize_data_file 5 [49, 50, 51] [74, 111, 110] 0).2
    (by decide) (by decide) (Or.inl (by decide))

/-- Claim C9: deleting an occupied slot (confirmation given) writes the
empty sentinel — even when the stored balance is non-zero, which is only
warned about, never refused — so the account no longer exists; a subsequent
Create with the same id succeeds, and reading that account afterwards
returns the newly created record, not the prior one. -/
theorem delete_then_recreate (file : List client_data) (a : Nat)
    (c : client_data) (k : Nat) (l f : List Nat) (b : Nat) (buf : client_data)
    (hlen : file.length = 100)
    (ha : validate_account_number a = true)
    (hget : file[a - 1]? = some c) (hc : c.acct_num ≠ 0)
    (hk : ascii_tolower k = 121)
    (hl : validate_name (some l) = true) (hf : validate_name (some f) = true) :
    (delete_account file a k).1 = true ∧
    (account_exists (delete_account file a k).2 a).1 = false ∧
    (create_account (delete_account file a k).2 a l f b).1 = true ∧
    read_account (create_account (delete_account file a k).2 a l f b).2.1 buf a
      = (true, initialize_client empty_client a (some l) (some f) b) := by
  obtain ⟨h1, h2⟩ := validate_account_number_true ha
  have hdel : delete_account file a k = (true, file.set (a - 1) empty_client) :=
    delete_account_spec file a k c ha hget hc hk
  have hlen1 : (file.set (a - 1) empty_client).length = 100 := by
    simp [hlen]
  have hget1 : (file.set (a - 1) empty_client)[a - 1]? = some empty_client :=
    List.getElem?_set_eq_of_lt empty_client (by omega)
  have hex : (account_exists (file.set (a - 1) empty_client) a).1 = false := by
    rw [account_exists_eq _ a h1 h2, hget1]
    simp [empty_client]
  have hcr : create_account (file.set (a - 1) empty_client) a l f b
      = (true,
         (file.set (a - 1) empty_client).set (a - 1)
           (initialize_client empty_client a (some l) (some f) b),
         [io_event.readSlot ((a : Int) - 1), io_event.writeSlot ((a : Int) - 1)]) :=
    create_account_spec _ a l f b ha hex hl hf
  refine ⟨by rw [hdel], by rw [hdel]; exact hex, ?_, ?_⟩
  · rw [hdel]
    simp only [hcr]
  · rw [hdel]
    simp only [hcr]
    unfold read_account
    rw [if_neg (by simp [ha]), read_v3_eq _ buf a h1 h2]
    have hget2 : ((file.set (a - 1) empty_client).set (a - 1)
        (initialize_client empty_client a (some l) (some f) b))[a - 1]?
        = some (initialize_client empty_client a (some l) (some f) b) :=
      List.getElem?_set_eq_of_lt _ (by simp [hlen]; omega)
    rw [hget2]
    have : ((initialize_client empty_client a (some l) (some f) b).acct_num != 0) = true := by
      simp [initialize_client]
      omega
    simp [this]

/-- The store after one successful Create of account 3 (balance pattern 77,
non-zero) on the fresh file. -/
def file_after_create3 : List client_data :=
  (create_account initialize_data_file 3 [79, 108, 100] [65, 110] 77).2.1

set_option maxRecDepth 8000 in
/-- Witness for C9: account 3 is created with a non-zero balance on the
fresh store, deleted with a `y` confirmation, recreated with different data,
and the final read returns the new data. -/
theorem delete_then_recreate_witness :
    (delete_account file_after_create3 3 121).1 = true ∧
    (account_exists (delete_account file_after_create3 3 121).2 3).1 = false ∧
    (create_account (delete_account file_after_create3 3 121).2 3 [78, 101, 119] [66, 111] 55).1 = true ∧
    read_account (create_account (delete_account file_after_create3 3 121).2 3 [78, 101, 119] [66, 111] 55).2.1
        empty_client 3
      = (true, initialize_client empty_client 3 (some [78, 101, 119]) (some [66, 111]) 55) :=
  delete_then_recreate file_after_create3 3
    (initialize_client empty_client 3 (some [79, 108, 100]) (some [65, 110]) 77)
    121 [78, 101, 119] [66, 111] 55 empty_client
    (by decide) (by decide) (by decide) (by decide) (by decide) (by decide) (by decide)
